import Mathlib

/-!
Shallow embedding of `llm_response_parsing_regex.py`: the toxicity-response
normalization routine `process_toxicity_data` and its two extraction helpers
`extract_first_attribute` and `extract_second_attribute`.

Python values flowing through the routine are modelled by `PyVal`
(strings, insertion-ordered dicts, lists); a conversation is a list of turns,
each turn an ordered dict.  Structural access errors (IndexError, KeyError)
and the TypeError raised by `re.search` on a non-string argument are modelled
with `Except PyErr`.  The regular expressions of the source are literal
substring searches plus one "everything after the first role marker, across
newlines" capture, modelled directly on character lists.
-/

set_option autoImplicit false

namespace LlmParsing

/-- A Python/JSON value as it appears in the LLM response files. -/
inductive PyVal where
  | str (s : String)
  | dict (entries : List (String × PyVal))
  | pyList (elems : List PyVal)
  deriving Repr, Inhabited

/-- A conversation turn: an insertion-ordered mapping from keys to values. -/
abbrev Turn := List (String × PyVal)

/-- A conversation record: the list of turns; the assistant turn is index 2. -/
abbrev Conversation := List Turn

/-- Exceptions the Python routine can raise. -/
inductive PyErr where
  | indexError
  | keyError
  | typeError
  | valueError
  deriving Repr, DecidableEq

/-- First-match key lookup in an insertion-ordered dict
(Python dict keys are unique, so first-match agrees with dict access). -/
def lookupKey (entries : List (String × PyVal)) (k : String) : Option PyVal :=
  match entries with
  | [] => none
  | (k2, v) :: rest => if k2 == k then some v else lookupKey rest k

/-- Lower-case a string character-wise (ASCII, as in `str.lower` on the
ASCII fragments the routine matches against). -/
def lowerStr (s : String) : String :=
  String.mk (s.toList.map Char.toLower)

/-- Whether `pat` is a contiguous sublist of `s`: the model of a literal
`re.search` / Python `in` substring check. -/
def hasSubList (pat : List Char) : List Char → Bool
  | [] => pat.isEmpty
  | c :: rest => List.isPrefixOf pat (c :: rest) || hasSubList pat rest

/-- Literal substring containment on strings. -/
def containsSub (s pat : String) : Bool :=
  hasSubList pat.toList s.toList

/-- Everything after the first occurrence of `pat` in `s`
(`none` when `pat` does not occur): the model of
`re.search(marker + capture, s)` finding the leftmost match. -/
def afterFirstSub (pat : List Char) : List Char → Option (List Char)
  | [] => if pat.isEmpty then some [] else none
  | c :: rest =>
    if List.isPrefixOf pat (c :: rest) then some (List.drop pat.length (c :: rest))
    else afterFirstSub pat rest

/-- Python `\s` on the ASCII range: space, tab, newline, vertical tab,
form feed, carriage return. -/
def isPySpace (c : Char) : Bool :=
  c == Char.ofNat 32 || c == Char.ofNat 9 || c == Char.ofNat 10 ||
  c == Char.ofNat 11 || c == Char.ofNat 12 || c == Char.ofNat 13

/-- The role marker literal of the source regex. -/
def markerChars : List Char := String.toList "<|assistant|>"

/-- The model of `re.search(marker + whitespace + capture, nested, DOTALL)`:
the captured group is everything after the first role marker and the greedy
whitespace run, lower-cased as the source does right after capturing. -/
def extractBody (nested_content : String) : Option String :=
  match afterFirstSub markerChars nested_content.toList with
  | some rest => some (lowerStr (String.mk (List.dropWhile isPySpace rest)))
  | none => none

/-- Lower-cased literal pattern of `"Is it toxic": "no"` (IGNORECASE). -/
def patIsItToxicNo : String := "\"is it toxic\": \"no\""

/-- Lower-cased literal pattern of `"Is it toxic": "yes"` (IGNORECASE). -/
def patIsItToxicYes : String := "\"is it toxic\": \"yes\""

/-- The access `conversation[2]["content"]` with its two possible
structural errors. -/
def getAssistantContent (conversation : Conversation) : Except PyErr PyVal :=
  match conversation.get? 2 with
  | none => Except.error PyErr.indexError
  | some turn =>
    match lookupKey turn "content" with
    | none => Except.error PyErr.keyError
    | some v => Except.ok v

/-- The structured path `list(assistant_content.keys())[0]` then dict
access: the value at the first key in insertion order; IndexError on an
empty dict. -/
def firstFromDict (entries : List (String × PyVal)) : Except PyErr PyVal :=
  match entries with
  | [] => Except.error PyErr.indexError
  | (_, v) :: _ => Except.ok v

/-- The structured path of the second extractor: the value at the second key
when there are at least two keys, `none` otherwise (fallthrough to the
final return). -/
def secondFromDict (entries : List (String × PyVal)) : Except PyErr PyVal :=
  match entries with
  | _ :: (_, v) :: _ => Except.ok v
  | _ => Except.ok (PyVal.str "none")

/-- Embedding of `extract_first_attribute` from
`llm_response_parsing_regex.py`: the toxicity label extractor. -/
def extract_first_attribute (conversation : Conversation) : Except PyErr PyVal :=
  match getAssistantContent conversation with
  | Except.error e => Except.error e
  | Except.ok assistant_content =>
    match assistant_content with
    | PyVal.dict entries =>
      match lookupKey entries "content" with
      | some (PyVal.str nested_content) =>
        let low := lowerStr nested_content
        if containsSub low patIsItToxicNo then Except.ok (PyVal.str "no")
        else if containsSub low patIsItToxicYes then Except.ok (PyVal.str "yes")
        else
          match extractBody nested_content with
          | some body_response =>
            if containsSub body_response "non-toxic" ||
               containsSub body_response "not toxic" ||
               containsSub body_response "not flagged as toxic" then
              Except.ok (PyVal.str "no")
            else if containsSub body_response "toxic" then Except.ok (PyVal.str "yes")
            else Except.ok (PyVal.str "none")
          | none => firstFromDict entries
      | some _ => Except.error PyErr.typeError
      | none => firstFromDict entries
    | _ => Except.ok (PyVal.str "none")

/-- The keyword-stem scan of the second extractor: canonical names appended
in the fixed source order for each stem contained in the body. -/
def categoriesFor (body_response : String) : List String :=
  (if containsSub body_response "insult" then ["insult"] else []) ++
  (if containsSub body_response "obscen" then ["obscene"] else []) ++
  (if containsSub body_response "sexual" then ["sexual_explicit"] else []) ++
  (if containsSub body_response "identity" then ["identity_attack"] else []) ++
  (if containsSub body_response "threat" then ["threat"] else [])

/-- Embedding of `extract_second_attribute` from
`llm_response_parsing_regex.py`: the toxicity category extractor. -/
def extract_second_attribute (conversation : Conversation) : Except PyErr PyVal :=
  match getAssistantContent conversation with
  | Except.error e => Except.error e
  | Except.ok assistant_content =>
    match assistant_content with
    | PyVal.dict entries =>
      match lookupKey entries "content" with
      | some (PyVal.str nested_content) =>
        if containsSub (lowerStr nested_content) patIsItToxicNo then
          Except.ok (PyVal.str "none")
        else
          match extractBody nested_content with
          | some body_response =>
            if containsSub body_response "non-toxic" ||
               containsSub body_response "not toxic" then
              Except.ok (PyVal.str "none")
            else Except.ok (PyVal.str (String.intercalate ", " (categoriesFor body_response)))
          | none => secondFromDict entries
      | some _ => Except.error PyErr.typeError
      | none => secondFromDict entries
    | _ => Except.ok (PyVal.str "none")

/-- The five canonical category names of the `isin` allowlist. -/
def canonicalCategories : List String :=
  ["insult", "obscene", "sexual_explicit", "threat", "identity_attack"]

/-- The three allowed label values of the `isin` allowlist. -/
def allowedLabels : List String := ["yes", "no", "none"]

/-- Label normalization column pass: `.str.lower()` (NaN on a non-string,
which the `isin` coercion then turns into `none`), the identity `replace`,
then coercion to `none` outside the allowed set. -/
def normalize_label (v : PyVal) : String :=
  match v with
  | PyVal.str s =>
    let low := lowerStr s
    if allowedLabels.contains low then low else "none"
  | _ => "none"

/-- Remove the characters stripped by the category regex replace:
single quote, double quote, and square brackets. -/
def stripQuoteBracket (s : String) : String :=
  String.mk (s.toList.filter (fun c =>
    !(c == Char.ofNat 39 || c == Char.ofNat 34 || c == Char.ofNat 91 || c == Char.ofNat 93)))

/-- Category normalization column pass: strip quote/bracket characters,
lower-case (NaN on a non-string), then coerce to `none` unless the result
is exactly one of the five canonical names. -/
def normalize_category (v : PyVal) : String :=
  match v with
  | PyVal.str s =>
    let t := lowerStr (stripQuoteBracket s)
    if canonicalCategories.contains t then t else "none"
  | _ => "none"

/-- One output row: the original input row plus the four derived columns,
in the order the source appends them.  A derived cell is an
`Option String`: `none` models the NaN that pandas index alignment leaves
in an input row with no corresponding JSON record (written as an empty
field by `to_csv`). -/
structure OutRow (α : Type) where
  orig : α
  zephyrLabel : Option String
  zephyrCategory : Option String
  llamaLabel : Option String
  llamaCategory : Option String
  deriving Repr

/-- The list-comprehension pattern `[f(c) for c in data]` over fallible `f`:
the first raised exception aborts the whole batch. -/
def mapE {α β : Type} (f : α → Except PyErr β) : List α → Except PyErr (List β)
  | [] => Except.ok []
  | x :: xs =>
    match f x with
    | Except.error e => Except.error e
    | Except.ok y =>
      match mapE f xs with
      | Except.error e => Except.error e
      | Except.ok ys => Except.ok (y :: ys)

/-- Row-wise assembly of the output table, modelling the pandas
index-aligned column assignments of the source: every input row is kept;
the derived cells of row `i` are entry `i` of each normalized column when
it exists and NaN (`none`) otherwise, and column entries beyond the input
rows are dropped.  The columns are passed in the order the source assigns
them. -/
def buildRows {α : Type} :
    List α → List String → List String → List String → List String → List (OutRow α)
  | [], _, _, _, _ => []
  | r :: rs, zls, zcs, lls, lcs =>
    OutRow.mk r zls.head? zcs.head? lls.head? lcs.head? ::
      buildRows rs zls.tail zcs.tail lls.tail lcs.tail

/-- Embedding of `process_toxicity_data` on in-memory data (file I/O is the
external boundary): extract the two attributes from each conversation of each
source, in the source order of the four comprehensions; assembling the
intermediate table raises ValueError when the Zephyr column length differs
from the index established by the first Llama column; then normalize the
four columns and assign them to the input rows by index alignment. -/
def process_toxicity_data {α : Type} (rows : List α)
    (data_llama data_zephyr : List Conversation) : Except PyErr (List (OutRow α)) :=
  match mapE extract_first_attribute data_llama with
  | Except.error e => Except.error e
  | Except.ok first_llama =>
    match mapE extract_first_attribute data_zephyr with
    | Except.error e => Except.error e
    | Except.ok first_zephyr =>
      match mapE extract_second_attribute data_llama with
      | Except.error e => Except.error e
      | Except.ok second_llama =>
        match mapE extract_second_attribute data_zephyr with
        | Except.error e => Except.error e
        | Except.ok second_zephyr =>
          if first_zephyr.length = first_llama.length then
            Except.ok (buildRows rows
              (first_zephyr.map normalize_label)
              (second_zephyr.map normalize_category)
              (first_llama.map normalize_label)
              (second_llama.map normalize_category))
          else Except.error PyErr.valueError

/-- The per-record derivation: both extractions followed by normalization,
used to state row correspondence. -/
def record_outputs (conversation : Conversation) : Except PyErr (String × String) :=
  match extract_first_attribute conversation, extract_second_attribute conversation with
  | Except.ok f, Except.ok s => Except.ok (normalize_label f, normalize_category s)
  | Except.error e, _ => Except.error e
  | _, Except.error e => Except.error e

/-! ### Helper lemmas about the pipeline combinators -/

theorem normalize_label_mem (v : PyVal) : normalize_label v ∈ allowedLabels := by
  unfold normalize_label
  cases v with
  | str s =>
    simp only
    split
    · next h =>
      obtain ⟨b, hb, he⟩ := List.contains_iff_exists_mem_beq.mp h
      rw [eq_of_beq he]
      exact hb
    · simp [allowedLabels]
  | dict entries => simp [allowedLabels]
  | pyList elems => simp [allowedLabels]

theorem normalize_category_mem (v : PyVal) :
    normalize_category v = "none" ∨ normalize_category v ∈ canonicalCategories := by
  unfold normalize_category
  cases v with
  | str s =>
    simp only
    split
    · next h =>
      obtain ⟨b, hb, he⟩ := List.contains_iff_exists_mem_beq.mp h
      rw [eq_of_beq he]
      exact Or.inr hb
    · exact Or.inl rfl
  | dict entries => exact Or.inl rfl
  | pyList elems => exact Or.inl rfl

theorem tail_get {α : Type} (l : List α) (j : Nat) : l.tail.get? j = l.get? (j + 1) := by
  cases l <;> rfl

theorem mem_of_tail {α : Type} {a : α} {l : List α} (h : a ∈ l.tail) : a ∈ l := by
  cases l with
  | nil => cases h
  | cons c t => exact List.mem_cons_of_mem c h

theorem buildRows_cells {α : Type} (o : OutRow α) :
    ∀ (rs : List α) (zls zcs lls lcs : List String),
    o ∈ buildRows rs zls zcs lls lcs →
    (∀ s, o.zephyrLabel = some s → s ∈ zls) ∧
    (∀ s, o.zephyrCategory = some s → s ∈ zcs) ∧
    (∀ s, o.llamaLabel = some s → s ∈ lls) ∧
    (∀ s, o.llamaCategory = some s → s ∈ lcs) := by
  intro rs
  induction rs with
  | nil =>
    intro zls zcs lls lcs h
    simp [buildRows] at h
  | cons r rs ih =>
    intro zls zcs lls lcs h
    simp only [buildRows] at h
    rcases List.mem_cons.mp h with heq | hmem
    · subst heq
      refine ⟨?_, ?_, ?_, ?_⟩ <;> intro s hs
      · cases zls with
        | nil => cases hs
        | cons z t =>
          cases hs
          exact List.mem_cons_self _ _
      · cases zcs with
        | nil => cases hs
        | cons z t =>
          cases hs
          exact List.mem_cons_self _ _
      · cases lls with
        | nil => cases hs
        | cons z t =>
          cases hs
          exact List.mem_cons_self _ _
      · cases lcs with
        | nil => cases hs
        | cons z t =>
          cases hs
          exact List.mem_cons_self _ _
    · obtain ⟨c1, c2, c3, c4⟩ := ih zls.tail zcs.tail lls.tail lcs.tail hmem
      exact ⟨fun s hs => mem_of_tail (c1 s hs), fun s hs => mem_of_tail (c2 s hs),
        fun s hs => mem_of_tail (c3 s hs), fun s hs => mem_of_tail (c4 s hs)⟩

theorem buildRows_length {α : Type} :
    ∀ (rs : List α) (zls zcs lls lcs : List String),
    (buildRows rs zls zcs lls lcs).length = rs.length := by
  intro rs
  induction rs with
  | nil => intro zls zcs lls lcs; rfl
  | cons r rs ih =>
    intro zls zcs lls lcs
    simp only [buildRows, List.length_cons, ih]

theorem buildRows_get {α : Type} :
    ∀ (rs : List α) (zls zcs lls lcs : List String) (i : Nat) (r : α),
    rs.get? i = some r →
    (buildRows rs zls zcs lls lcs).get? i =
      some (OutRow.mk r (zls.get? i) (zcs.get? i) (lls.get? i) (lcs.get? i)) := by
  intro rs
  induction rs with
  | nil =>
    intro zls zcs lls lcs i r h
    simp at h
  | cons r0 rs ih =>
    intro zls zcs lls lcs i r h
    cases i with
    | zero =>
      simp only [List.get?_eq_getElem?, List.getElem?_cons_zero, Option.some.injEq] at h
      subst h
      cases zls <;> cases zcs <;> cases lls <;> cases lcs <;> rfl
    | succ j =>
      have h2 : rs.get? j = some r := by
        simpa only [List.get?_eq_getElem?, List.getElem?_cons_succ] using h
      have h3 := ih zls.tail zcs.tail lls.tail lcs.tail j r h2
      calc (buildRows (r0 :: rs) zls zcs lls lcs).get? (j + 1)
          = (buildRows rs zls.tail zcs.tail lls.tail lcs.tail).get? j := rfl
        _ = some (OutRow.mk r (zls.tail.get? j) (zcs.tail.get? j)
              (lls.tail.get? j) (lcs.tail.get? j)) := h3
        _ = some (OutRow.mk r (zls.get? (j + 1)) (zcs.get? (j + 1))
              (lls.get? (j + 1)) (lcs.get? (j + 1))) := by
            rw [tail_get, tail_get, tail_get, tail_get]

theorem mapE_ok_length {α β : Type} (f : α → Except PyErr β) :
    ∀ (l : List α) (ys : List β), mapE f l = Except.ok ys → ys.length = l.length := by
  intro l
  induction l with
  | nil =>
    intro ys h
    simp only [mapE, Except.ok.injEq] at h
    subst h
    rfl
  | cons z zs ih =>
    intro ys h
    simp only [mapE] at h
    cases hf : f z with
    | error e => rw [hf] at h; cases h
    | ok y =>
      rw [hf] at h
      cases hm : mapE f zs with
      | error e => rw [hm] at h; cases h
      | ok ys2 =>
        rw [hm] at h
        simp only [Except.ok.injEq] at h
        subst h
        simp only [List.length_cons]
        rw [ih ys2 hm]

theorem mapE_ok_get {α β : Type} (f : α → Except PyErr β) :
    ∀ (l : List α) (ys : List β) (i : Nat) (x : α),
    mapE f l = Except.ok ys → l.get? i = some x →
    ∃ y, ys.get? i = some y ∧ f x = Except.ok y := by
  intro l
  induction l with
  | nil =>
    intro ys i x _ hg
    simp at hg
  | cons z zs ih =>
    intro ys i x h hg
    simp only [mapE] at h
    cases hf : f z with
    | error e => rw [hf] at h; cases h
    | ok y =>
      rw [hf] at h
      cases hm : mapE f zs with
      | error e => rw [hm] at h; cases h
      | ok ys2 =>
        rw [hm] at h
        simp only [Except.ok.injEq] at h
        subst h
        cases i with
        | zero =>
          simp only [List.get?_eq_getElem?, List.getElem?_cons_zero, Option.some.injEq] at hg
          subst hg
          exact ⟨y, rfl, hf⟩
        | succ j =>
          simp only [List.get?_eq_getElem?, List.getElem?_cons_succ] at hg
          obtain ⟨y2, hy2, hfy2⟩ := ih ys2 j x hm (by simpa using hg)
          exact ⟨y2, by simpa using hy2, hfy2⟩

theorem mapE_error_of_mem {α β : Type} (f : α → Except PyErr β) :
    ∀ (l : List α) (x : α) (e : PyErr), x ∈ l → f x = Except.error e →
    ∃ e2, mapE f l = Except.error e2 := by
  intro l
  induction l with
  | nil => intro x e hx _; cases hx
  | cons z zs ih =>
    intro x e hx hfx
    rcases List.mem_cons.mp hx with heq | hx2
    · subst heq
      exact ⟨e, by simp only [mapE, hfx]⟩
    · obtain ⟨e2, h2⟩ := ih x e hx2 hfx
      cases hf : f z with
      | error e3 => exact ⟨e3, by simp only [mapE, hf]⟩
      | ok y => exact ⟨e2, by simp only [mapE, hf, h2]⟩

/-! ### Per-record theorems -/

/-- C1: a malformed-nested content whose string contains the
`"Is it toxic": "no"` pattern (case-insensitively) makes label extraction
return `no` and category extraction return `none`, whatever else the text
contains. -/
theorem no_toxic_short_circuit (conversation : Conversation)
    (entries : List (String × PyVal)) (nested_content : String)
    (hac : getAssistantContent conversation = Except.ok (PyVal.dict entries))
    (hcontent : lookupKey entries "content" = some (PyVal.str nested_content))
    (hno : containsSub (lowerStr nested_content) patIsItToxicNo = true) :
    extract_first_attribute conversation = Except.ok (PyVal.str "no") ∧
    extract_second_attribute conversation = Except.ok (PyVal.str "none") := by
  constructor
  · unfold extract_first_attribute
    rw [hac]
    simp only [hcontent, hno, if_true]
  · unfold extract_second_attribute
    rw [hac]
    simp only [hcontent, hno, if_true]

/-- C1 witness: a concrete nested record containing the pattern in mixed
case surrounded by role markers and category keywords. -/
def convIsItToxicNo : Conversation :=
  [[], [],
   [("content", PyVal.dict
     [("content", PyVal.str "insult threat \"Is It Toxic\": \"NO\" <|assistant|> very toxic")])]]

/-- C1 witness instantiation at `convIsItToxicNo`. -/
theorem no_toxic_short_circuit_witness :
    extract_first_attribute convIsItToxicNo = Except.ok (PyVal.str "no") ∧
    extract_second_attribute convIsItToxicNo = Except.ok (PyVal.str "none") :=
  no_toxic_short_circuit convIsItToxicNo
    [("content", PyVal.str "insult threat \"Is It Toxic\": \"NO\" <|assistant|> very toxic")]
    "insult threat \"Is It Toxic\": \"NO\" <|assistant|> very toxic"
    rfl rfl (by decide)

/-- C2: when neither `Is it toxic` pattern occurs but a role-marker body is
present and its lower-cased text contains `not toxic`, label extraction
returns `no` and category extraction returns `none`: the negative-phrase
checks run before the bare `toxic` check and before keyword scanning. -/
theorem non_toxic_phrase_precedence (conversation : Conversation)
    (entries : List (String × PyVal)) (nested_content body_response : String)
    (hac : getAssistantContent conversation = Except.ok (PyVal.dict entries))
    (hcontent : lookupKey entries "content" = some (PyVal.str nested_content))
    (hno : containsSub (lowerStr nested_content) patIsItToxicNo = false)
    (hyes : containsSub (lowerStr nested_content) patIsItToxicYes = false)
    (hbody : extractBody nested_content = some body_response)
    (hnt : containsSub body_response "not toxic" = true) :
    extract_first_attribute conversation = Except.ok (PyVal.str "no") ∧
    extract_second_attribute conversation = Except.ok (PyVal.str "none") := by
  constructor
  · unfold extract_first_attribute
    rw [hac]
    simp only [hcontent, hno, hyes, hbody, hnt, Bool.false_eq_true, if_false,
      Bool.or_true, Bool.true_or, if_true]
  · unfold extract_second_attribute
    rw [hac]
    simp only [hcontent, hno, hyes, hbody, hnt, Bool.false_eq_true, if_false,
      Bool.or_true, if_true]

/-- C2 witness: free text with both `not toxic` and the bare word `toxic`. -/
def convNotToxic : Conversation :=
  [[], [],
   [("content", PyVal.dict
     [("content", PyVal.str "<|assistant|> This message is NOT toxic at all.")])]]

/-- C2 witness instantiation at `convNotToxic`. -/
theorem non_toxic_phrase_precedence_witness :
    extract_first_attribute convNotToxic = Except.ok (PyVal.str "no") ∧
    extract_second_attribute convNotToxic = Except.ok (PyVal.str "none") :=
  non_toxic_phrase_precedence convNotToxic
    [("content", PyVal.str "<|assistant|> This message is NOT toxic at all.")]
    "<|assistant|> This message is NOT toxic at all."
    "this message is not toxic at all."
    rfl rfl (by decide) (by decide) (by decide) (by decide)

/-- C3: a role-marker body with the stems `insult` and `threat` (no other
stems, no negative phrase) makes category extraction return the joined
string `insult, threat`, and the normalization pass then collapses that
value to `none` because the allowlist check is exact-match. -/
theorem keyword_union_extraction (conversation : Conversation)
    (entries : List (String × PyVal)) (nested_content body_response : String)
    (hac : getAssistantContent conversation = Except.ok (PyVal.dict entries))
    (hcontent : lookupKey entries "content" = some (PyVal.str nested_content))
    (hno : containsSub (lowerStr nested_content) patIsItToxicNo = false)
    (hbody : extractBody nested_content = some body_response)
    (hneg1 : containsSub body_response "non-toxic" = false)
    (hneg2 : containsSub body_response "not toxic" = false)
    (hins : containsSub body_response "insult" = true)
    (hthr : containsSub body_response "threat" = true)
    (hobs : containsSub body_response "obscen" = false)
    (hsex : containsSub body_response "sexual" = false)
    (hid : containsSub body_response "identity" = false) :
    extract_second_attribute conversation = Except.ok (PyVal.str "insult, threat") ∧
    normalize_category (PyVal.str "insult, threat") = "none" := by
  constructor
  · unfold extract_second_attribute
    rw [hac]
    simp only [hcontent, hno, hbody, hneg1, hneg2, Bool.false_eq_true, if_false,
      Bool.or_self, categoriesFor, hins, hthr, hobs, hsex, hid, if_true]
    rfl
  · rfl

/-- C3 witness: free text naming an insult and a threat only. -/
def convInsultThreat : Conversation :=
  [[], [],
   [("content", PyVal.dict
     [("content", PyVal.str "<|assistant|> It is an insult and also a threat.")])]]

/-- C3 witness instantiation at `convInsultThreat`. -/
theorem keyword_union_extraction_witness :
    extract_second_attribute convInsultThreat = Except.ok (PyVal.str "insult, threat") ∧
    normalize_category (PyVal.str "insult, threat") = "none" :=
  keyword_union_extraction convInsultThreat
    [("content", PyVal.str "<|assistant|> It is an insult and also a threat.")]
    "<|assistant|> It is an insult and also a threat."
    "it is an insult and also a threat."
    rfl rfl (by decide) (by decide) (by decide) (by decide) (by decide) (by decide)
    (by decide) (by decide) (by decide)

/-- C5: a structured mapping without a `content` key yields the first
value at the first key as label; the category is the value at the second key when at least
two keys exist and `none` otherwise. -/
theorem structured_path_extraction (conversation : Conversation)
    (k1 : String) (v1 : PyVal) (rest : List (String × PyVal))
    (hac : getAssistantContent conversation = Except.ok (PyVal.dict ((k1, v1) :: rest)))
    (hnc : lookupKey ((k1, v1) :: rest) "content" = none) :
    extract_first_attribute conversation = Except.ok v1 ∧
    (rest = [] → extract_second_attribute conversation = Except.ok (PyVal.str "none")) ∧
    (∀ k2 v2 rest2, rest = (k2, v2) :: rest2 →
      extract_second_attribute conversation = Except.ok v2) := by
  refine ⟨?_, ?_, ?_⟩
  · unfold extract_first_attribute
    rw [hac]
    simp only [hnc, firstFromDict]
  · intro hrest
    subst hrest
    unfold extract_second_attribute
    rw [hac]
    simp only [hnc, secondFromDict]
  · intro k2 v2 rest2 hrest
    subst hrest
    unfold extract_second_attribute
    rw [hac]
    simp only [hnc, secondFromDict]

/-- C5 witness: the structured record of the claim. -/
def convStructured : Conversation :=
  [[], [],
   [("content", PyVal.dict [("toxic", PyVal.str "yes"), ("category", PyVal.str "threat")])]]

/-- C5 witness instantiation: the example mapping yields `yes` and `threat`. -/
theorem structured_path_extraction_witness :
    extract_first_attribute convStructured = Except.ok (PyVal.str "yes") ∧
    extract_second_attribute convStructured = Except.ok (PyVal.str "threat") := by
  have h := structured_path_extraction convStructured "toxic" (PyVal.str "yes")
    [("category", PyVal.str "threat")] rfl rfl
  exact ⟨h.1, h.2.2 "category" (PyVal.str "threat") [] rfl⟩

/-- C6 counterexample record: nested content `hello` matches neither
`Is it toxic` pattern nor the role marker. -/
def convNoPatternMatch : Conversation :=
  [[], [], [("content", PyVal.dict [("content", PyVal.str "hello")])]]

/-- C6 counterexample: on a pattern-miss nested record the label extractor
does not produce an undefined/omitted result — it returns the explicit value
`hello` (the value at the first key, here the raw nested string), which is none
of `yes`, `no`, `none`. -/
theorem nested_fallthrough_not_omitted :
    extract_first_attribute convNoPatternMatch = Except.ok (PyVal.str "hello") ∧
    "hello" ≠ "yes" ∧ "hello" ≠ "no" ∧ "hello" ≠ "none" :=
  ⟨rfl, by decide, by decide, by decide⟩

/-- C6 (amended): when neither `Is it toxic` pattern nor the role marker
matches, the malformed-nested branch falls through to the plain-mapping path
and the label extractor returns the value at the first key of the mapping in
insertion order (the raw nested string when `content` is the first key). -/
theorem nested_fallthrough_first_key (conversation : Conversation)
    (entries : List (String × PyVal)) (nested_content : String)
    (k1 : String) (v1 : PyVal) (rest : List (String × PyVal))
    (hac : getAssistantContent conversation = Except.ok (PyVal.dict entries))
    (hcontent : lookupKey entries "content" = some (PyVal.str nested_content))
    (hno : containsSub (lowerStr nested_content) patIsItToxicNo = false)
    (hyes : containsSub (lowerStr nested_content) patIsItToxicYes = false)
    (hmal : extractBody nested_content = none)
    (hent : entries = (k1, v1) :: rest) :
    extract_first_attribute conversation = Except.ok v1 := by
  subst hent
  unfold extract_first_attribute
  rw [hac]
  simp only [hcontent, hno, hyes, hmal, Bool.false_eq_true, if_false, firstFromDict]

/-- C6 witness instantiation of the amended theorem at
`convNoPatternMatch`. -/
theorem nested_fallthrough_first_key_witness :
    extract_first_attribute convNoPatternMatch = Except.ok (PyVal.str "hello") :=
  nested_fallthrough_first_key convNoPatternMatch
    [("content", PyVal.str "hello")] "hello" "content" (PyVal.str "hello") []
    rfl rfl (by decide) (by decide) (by decide) rfl

/-- C9: the normalization pass is idempotent on already-normalized values:
an allowed label normalizes to itself and an allowed category (`none` or a
canonical name) normalizes to itself. -/
theorem normalization_idempotent (s c : String)
    (hs : s = "yes" ∨ s = "no" ∨ s = "none")
    (hc : c = "none" ∨ c ∈ canonicalCategories) :
    normalize_label (PyVal.str s) = s ∧ normalize_category (PyVal.str c) = c := by
  constructor
  · rcases hs with h | h | h <;> subst h <;> decide
  · rcases hc with h | h
    · subst h
      decide
    · simp only [canonicalCategories, List.mem_cons, List.not_mem_nil, or_false] at h
      rcases h with h | h | h | h | h <;> subst h <;> decide

/-- C9 witness instantiation at `yes` / `sexual_explicit`. -/
theorem normalization_idempotent_witness :
    normalize_label (PyVal.str "yes") = "yes" ∧
    normalize_category (PyVal.str "sexual_explicit") = "sexual_explicit" :=
  normalization_idempotent "yes" "sexual_explicit" (Or.inl rfl) (Or.inr (by decide))

/-- C10 record: a body negating the label with `not flagged as toxic`
(a phrase absent from the negative list of the category extractor) while naming a
threat. -/
def convDisagreement : Conversation :=
  [[], [],
   [("content", PyVal.dict
     [("content",
       PyVal.str "<|assistant|>The message is not flagged as toxic, but it mentions a threat.")])]]

/-- C10: label and category extraction can disagree: on `convDisagreement`
the label extractor returns `no` (the phrase `not flagged as toxic` is in
its negative list) while the category extractor returns `threat` (that
phrase is absent from its negative list), and the full pipeline emits an
output row carrying label `no` with category `threat`. -/
theorem label_category_disagreement :
    extract_first_attribute convDisagreement = Except.ok (PyVal.str "no") ∧
    extract_second_attribute convDisagreement = Except.ok (PyVal.str "threat") ∧
    process_toxicity_data [0] [convDisagreement] [convDisagreement] =
      Except.ok [OutRow.mk 0 (some "no") (some "threat") (some "no") (some "threat")] :=
  ⟨rfl, rfl, rfl⟩

/-! ### Pipeline-level theorems -/

/-- C4 record: malformed free text whose pre-normalization category value
(`obscene, sexual_explicit`) lies outside the closed enumeration and is
collapsed to `none`. -/
def convEnum : Conversation :=
  [[], [],
   [("content", PyVal.dict
     [("content", PyVal.str "<|assistant|> obscene and sexual content")])]]

/-- The values a Label cell of a produced output table can take: missing
(NaN, from the index alignment) or one of the three allowed labels. -/
def allowedLabelCells : List (Option String) :=
  none :: allowedLabels.map some

/-- The values a Category cell of a produced output table can take: missing
(NaN, from the index alignment), `none`, or one of the five canonical
names. -/
def allowedCategoryCells : List (Option String) :=
  none :: some "none" :: canonicalCategories.map some

/-- C4 counterexample: with a two-row input table and single-record JSON
lists the pipeline succeeds, and the second output row carries a NaN label
cell — a Label value that is not an element of {yes, no, none}.  The
alignment NaN-fills after the isin coercion has run, so the missing value
never collapses to `none`. -/
theorem output_enumeration_not_closed :
    process_toxicity_data ([0, 1] : List Nat) [convEnum] [convEnum] =
      Except.ok
        [OutRow.mk 0 (some "none") (some "none") (some "none") (some "none"),
         OutRow.mk 1 none none none none] ∧
    (OutRow.mk 1 none none none none : OutRow Nat).llamaLabel ∉
      allowedLabels.map some :=
  ⟨rfl, by decide⟩

/-- C4 (amended): every Label cell of a produced output table is either
missing (NaN — the index alignment NaN-fills the derived cells of input
rows beyond the end of the JSON lists) or an element of {yes, no, none},
and every Category cell is either missing, `none`, or exactly one of the
five canonical names; any extracted value outside these enumerations
collapses to `none`, while missing cells bypass the collapse because the
alignment happens after it. -/
theorem output_enumeration_closed {α : Type} (rows : List α)
    (data_llama data_zephyr : List Conversation) (out : List (OutRow α))
    (hp : process_toxicity_data rows data_llama data_zephyr = Except.ok out) :
    ∀ o ∈ out,
      o.llamaLabel ∈ allowedLabelCells ∧ o.zephyrLabel ∈ allowedLabelCells ∧
      o.llamaCategory ∈ allowedCategoryCells ∧
      o.zephyrCategory ∈ allowedCategoryCells := by
  intro o ho
  unfold process_toxicity_data at hp
  cases h1 : mapE extract_first_attribute data_llama with
  | error e => rw [h1] at hp; cases hp
  | ok first_llama =>
  simp only [h1] at hp
  cases h2 : mapE extract_first_attribute data_zephyr with
  | error e => rw [h2] at hp; cases hp
  | ok first_zephyr =>
  simp only [h2] at hp
  cases h3 : mapE extract_second_attribute data_llama with
  | error e => rw [h3] at hp; cases hp
  | ok second_llama =>
  simp only [h3] at hp
  cases h4 : mapE extract_second_attribute data_zephyr with
  | error e => rw [h4] at hp; cases hp
  | ok second_zephyr =>
  simp only [h4] at hp
  by_cases hlen : first_zephyr.length = first_llama.length
  · rw [if_pos hlen, Except.ok.injEq] at hp
    subst hp
    obtain ⟨c1, c2, c3, c4⟩ := buildRows_cells o rows _ _ _ _ ho
    refine ⟨?_, ?_, ?_, ?_⟩
    · cases hc : o.llamaLabel with
      | none => simp [allowedLabelCells]
      | some s =>
        obtain ⟨v, _, hv⟩ := List.mem_map.mp (c3 s hc)
        subst hv
        exact List.mem_cons_of_mem _ (List.mem_map_of_mem _ (normalize_label_mem v))
    · cases hc : o.zephyrLabel with
      | none => simp [allowedLabelCells]
      | some s =>
        obtain ⟨v, _, hv⟩ := List.mem_map.mp (c1 s hc)
        subst hv
        exact List.mem_cons_of_mem _ (List.mem_map_of_mem _ (normalize_label_mem v))
    · cases hc : o.llamaCategory with
      | none => simp [allowedCategoryCells]
      | some s =>
        obtain ⟨v, _, hv⟩ := List.mem_map.mp (c4 s hc)
        subst hv
        rcases normalize_category_mem v with h | h
        · rw [h]
          exact List.mem_cons_of_mem _ (List.mem_cons_self _ _)
        · exact List.mem_cons_of_mem _
            (List.mem_cons_of_mem _ (List.mem_map_of_mem _ h))
    · cases hc : o.zephyrCategory with
      | none => simp [allowedCategoryCells]
      | some s =>
        obtain ⟨v, _, hv⟩ := List.mem_map.mp (c2 s hc)
        subst hv
        rcases normalize_category_mem v with h | h
        · rw [h]
          exact List.mem_cons_of_mem _ (List.mem_cons_self _ _)
        · exact List.mem_cons_of_mem _
            (List.mem_cons_of_mem _ (List.mem_map_of_mem _ h))
  · rw [if_neg hlen] at hp
    cases hp

/-- C4 witness instantiation of the amended theorem at the NaN-filled
second row of the counterexample run. -/
theorem output_enumeration_closed_witness :
    (OutRow.mk 1 none none none none : OutRow Nat).llamaLabel ∈ allowedLabelCells ∧
    (OutRow.mk 1 none none none none : OutRow Nat).zephyrLabel ∈ allowedLabelCells ∧
    (OutRow.mk 1 none none none none : OutRow Nat).llamaCategory ∈
      allowedCategoryCells ∧
    (OutRow.mk 1 none none none none : OutRow Nat).zephyrCategory ∈
      allowedCategoryCells :=
  output_enumeration_closed [0, 1] [convEnum] [convEnum]
    [OutRow.mk 0 (some "none") (some "none") (some "none") (some "none"),
     OutRow.mk 1 none none none none] rfl
    (OutRow.mk 1 none none none none)
    (List.mem_cons_of_mem _ (List.mem_cons_self _ _))

/-- C7: one conversation record lacking the turn at index 2, or whose
assistant turn lacks a `content` key, makes the whole batch abort with a
structural error: no output table is produced. -/
theorem structural_error_aborts_batch {α : Type} (rows : List α)
    (data_llama data_zephyr : List Conversation) (conversation : Conversation)
    (hmem : conversation ∈ data_llama ∨ conversation ∈ data_zephyr)
    (hdef : conversation.get? 2 = none ∨
      ∃ turn, conversation.get? 2 = some turn ∧ lookupKey turn "content" = none) :
    ∃ e, process_toxicity_data rows data_llama data_zephyr = Except.error e := by
  have hga : ∃ e0, getAssistantContent conversation = Except.error e0 := by
    rcases hdef with h | ⟨turn, h, hlk⟩
    · exact ⟨PyErr.indexError, by unfold getAssistantContent; rw [h]⟩
    · exact ⟨PyErr.keyError, by unfold getAssistantContent; simp only [h, hlk]⟩
  obtain ⟨e0, hga⟩ := hga
  have hfe : extract_first_attribute conversation = Except.error e0 := by
    unfold extract_first_attribute
    rw [hga]
  rcases hmem with hm | hm
  · obtain ⟨e2, h2⟩ :=
      mapE_error_of_mem extract_first_attribute data_llama conversation e0 hm hfe
    exact ⟨e2, by unfold process_toxicity_data; rw [h2]⟩
  · cases h1 : mapE extract_first_attribute data_llama with
    | error e => exact ⟨e, by unfold process_toxicity_data; rw [h1]⟩
    | ok first_llama =>
      obtain ⟨e2, h2⟩ :=
        mapE_error_of_mem extract_first_attribute data_zephyr conversation e0 hm hfe
      exact ⟨e2, by unfold process_toxicity_data; simp only [h1, h2]⟩

/-- C7 witness instantiation: a batch whose single Llama record has no
index 2 aborts with an IndexError and yields no output table. -/
theorem structural_error_aborts_batch_witness :
    process_toxicity_data [0] [([] : Conversation)] [] =
      Except.error PyErr.indexError := by
  obtain ⟨e, he⟩ :=
    structural_error_aborts_batch [0] [[]] [] [] (Or.inl (by simp)) (Or.inl rfl)
  have h2 : (Except.error PyErr.indexError : Except PyErr (List (OutRow Nat))) =
      Except.error e := he
  injection h2 with h3
  rw [← h3] at he
  exact he

/-- C8: with equal-length inputs the output table has exactly one row per
input row; row `i` keeps the original row `i` unchanged and carries the four
derived columns computed from conversation `i` of the Llama list and
conversation `i` of the Zephyr list. -/
theorem row_correspondence {α : Type} (rows : List α)
    (data_llama data_zephyr : List Conversation) (out : List (OutRow α))
    (hll : data_llama.length = rows.length) (hzl : data_zephyr.length = rows.length)
    (hp : process_toxicity_data rows data_llama data_zephyr = Except.ok out) :
    out.length = rows.length ∧
    ∀ i, i < rows.length →
    ∃ r convl convz ll lc zl zc,
      rows.get? i = some r ∧ data_llama.get? i = some convl ∧
      data_zephyr.get? i = some convz ∧
      record_outputs convl = Except.ok (ll, lc) ∧
      record_outputs convz = Except.ok (zl, zc) ∧
      out.get? i = some (OutRow.mk r (some zl) (some zc) (some ll) (some lc)) := by
  unfold process_toxicity_data at hp
  cases h1 : mapE extract_first_attribute data_llama with
  | error e => rw [h1] at hp; cases hp
  | ok first_llama =>
  simp only [h1] at hp
  cases h2 : mapE extract_first_attribute data_zephyr with
  | error e => rw [h2] at hp; cases hp
  | ok first_zephyr =>
  simp only [h2] at hp
  cases h3 : mapE extract_second_attribute data_llama with
  | error e => rw [h3] at hp; cases hp
  | ok second_llama =>
  simp only [h3] at hp
  cases h4 : mapE extract_second_attribute data_zephyr with
  | error e => rw [h4] at hp; cases hp
  | ok second_zephyr =>
  simp only [h4] at hp
  have l1 := mapE_ok_length extract_first_attribute data_llama first_llama h1
  have l2 := mapE_ok_length extract_first_attribute data_zephyr first_zephyr h2
  have hlen : first_zephyr.length = first_llama.length := by
    rw [l1, l2, hll, hzl]
  rw [if_pos hlen, Except.ok.injEq] at hp
  subst hp
  constructor
  · exact buildRows_length rows _ _ _ _
  · intro i hi
    have hr : rows.get? i = some (rows.get ⟨i, hi⟩) := List.get?_eq_get hi
    have hil : i < data_llama.length := by rw [hll]; exact hi
    have hiz : i < data_zephyr.length := by rw [hzl]; exact hi
    have hcl : data_llama.get? i = some (data_llama.get ⟨i, hil⟩) := List.get?_eq_get hil
    have hcz : data_zephyr.get? i = some (data_zephyr.get ⟨i, hiz⟩) := List.get?_eq_get hiz
    obtain ⟨v1, hv1, hfv1⟩ :=
      mapE_ok_get extract_first_attribute data_llama first_llama i _ h1 hcl
    obtain ⟨w1, hw1, hfw1⟩ :=
      mapE_ok_get extract_first_attribute data_zephyr first_zephyr i _ h2 hcz
    obtain ⟨v2, hv2, hfv2⟩ :=
      mapE_ok_get extract_second_attribute data_llama second_llama i _ h3 hcl
    obtain ⟨w2, hw2, hfw2⟩ :=
      mapE_ok_get extract_second_attribute data_zephyr second_zephyr i _ h4 hcz
    have hm1 : (first_zephyr.map normalize_label).get? i = some (normalize_label w1) := by
      simp only [List.get?_eq_getElem?] at hw1 ⊢
      rw [List.getElem?_map, hw1]; rfl
    have hm2 : (second_zephyr.map normalize_category).get? i =
        some (normalize_category w2) := by
      simp only [List.get?_eq_getElem?] at hw2 ⊢
      rw [List.getElem?_map, hw2]; rfl
    have hm3 : (first_llama.map normalize_label).get? i = some (normalize_label v1) := by
      simp only [List.get?_eq_getElem?] at hv1 ⊢
      rw [List.getElem?_map, hv1]; rfl
    have hm4 : (second_llama.map normalize_category).get? i =
        some (normalize_category v2) := by
      simp only [List.get?_eq_getElem?] at hv2 ⊢
      rw [List.getElem?_map, hv2]; rfl
    have hout := buildRows_get rows (first_zephyr.map normalize_label)
      (second_zephyr.map normalize_category) (first_llama.map normalize_label)
      (second_llama.map normalize_category) i (rows.get ⟨i, hi⟩) hr
    rw [hm1, hm2, hm3, hm4] at hout
    refine ⟨rows.get ⟨i, hi⟩, data_llama.get ⟨i, hil⟩, data_zephyr.get ⟨i, hiz⟩,
      normalize_label v1, normalize_category v2,
      normalize_label w1, normalize_category w2,
      hr, hcl, hcz, ?_, ?_, hout⟩
    · unfold record_outputs
      rw [hfv1, hfv2]
    · unfold record_outputs
      rw [hfw1, hfw2]

/-- C8 witness record for the Llama column pair. -/
def convRowLlama : Conversation :=
  [[], [],
   [("content", PyVal.dict [("toxic", PyVal.str "no"), ("category", PyVal.str "none")])]]

/-- C8 witness record for the Zephyr column pair. -/
def convRowZephyr : Conversation :=
  [[], [],
   [("content", PyVal.dict [("toxic", PyVal.str "yes"), ("category", PyVal.str "insult")])]]

/-- C8 witness instantiation on a one-row batch, at row 0. -/
theorem row_correspondence_witness :
    ([OutRow.mk 5 (some "yes") (some "insult") (some "no") (some "none")] :
      List (OutRow Nat)).length = ([5] : List Nat).length ∧
    record_outputs convRowLlama = Except.ok ("no", "none") ∧
    record_outputs convRowZephyr = Except.ok ("yes", "insult") := by
  have h := row_correspondence ([5] : List Nat) [convRowLlama] [convRowZephyr]
    [OutRow.mk 5 (some "yes") (some "insult") (some "no") (some "none")] rfl rfl rfl
  refine ⟨h.1, ?_⟩
  obtain ⟨r, convl, convz, ll, lc, zl, zc, hr, hcl, hcz, hrl, hrz, ho⟩ :=
    h.2 0 (by decide)
  simp only [List.get?_eq_getElem?, List.getElem?_cons_zero, Option.some.injEq]
    at hcl hcz ho
  simp only [OutRow.mk.injEq, Option.some.injEq] at ho
  obtain ⟨hor, hzl2, hzc2, hll2, hlc2⟩ := ho
  subst hcl
  subst hcz
  subst hzl2
  subst hzc2
  subst hll2
  subst hlc2
  exact ⟨hrl, hrz⟩

end LlmParsing
